import Mathlib

/-!
Verification development for the session-lifecycle core of `eclipsesource/glsp-client`:
a shallow embedding of `NodeGLSPClient`
(src/packages/protocol/src/client-server-protocol/node/node-glsp-client.ts).

The class is a small asynchronous state machine.  We embed it as a record of its
fields together with one executable Lean function per method.  Asynchrony is made
explicit: the `setTimeout` callback of `start`'s deadline and the continuation of
`Promise.race([serverDeferred.promise, timeOut])` are separate atomic events
(`Event.timerFires`, `Event.raceCont`) that may be interleaved with the public
method calls, exactly as the JavaScript event loop interleaves them.  A trace is a
list of such events; theorems quantify over traces.

`Deferred` values (one-shot gates) are embedded as their settled outcome:
`serverDeferredVal : Option GLSPServer` (`none` = pending; this gate is only ever
resolved, never rejected), `startSignal : Option (Outcome GLSPError Unit)` for
`onStartDeferred`, and `stopResolved : Bool` for `onStopDeferred` (only ever
resolved).  Thrown `Error` objects are embedded as the inductive `GLSPError`.
Calls forwarded to the bound `GLSPServer` are logged in `calls` so that theorems
can speak about "no forwarding happened" and "shutdown was invoked exactly once".

The message-routing part of the class (`createProxy`, `onActionMessage`) is pure
list manipulation and is embedded separately below as `distinctAdd`/`removeHandler`
(from utils/array-util) and `proxyProcess`.
-/

namespace NodeGLSP

/-- Result of a one-shot computation: embeds a settled JavaScript promise
(resolved with `α` or rejected with `ε`). -/
inductive Outcome (ε α : Type) where
  | ok (a : α)
  | err (e : ε)
deriving DecidableEq, Repr

/-- ClientState from glsp-client.ts, as used by NodeGLSPClient. -/
inductive ClientState where
  | Initial
  | Starting
  | Running
  | Stopping
  | Stopped
  | StartFailed
deriving DecidableEq, Repr

/-- Embeds a `GLSPServer` binding.  `sid` is the identity of the binding;
`shutdownThrows` records whether its `shutdown()` implementation throws
(the session treats the binding as opaque, so this is the only behaviour of
the binding the lifecycle claims depend on). -/
structure GLSPServer where
  sid : Nat
  shutdownThrows : Bool
deriving DecidableEq, Repr

/-- Errors thrown by NodeGLSPClient, one constructor per `new Error(...)` site.
`notRunning` embeds "Client with id ... is not in Running state" thrown by
`checkState` (it names the required state `Running`); `noServerConfigured` embeds
"No server is configured for GLSPClient with id ..." thrown by `checkedServer`;
`alreadyRunning` embeds "Could not configure new server. The GLSPClient is already
running" thrown by `configureServer`; `startupTimeout` embeds "Could not start
client. No server is configured" rejected by the start deadline; `shutdownFailure`
embeds the error thrown by a binding whose `shutdown()` throws. -/
inductive GLSPError where
  | notRunning (id : String) (required : ClientState)
  | noServerConfigured (id : String)
  | alreadyRunning
  | startupTimeout
  | shutdownFailure (sid : Nat)
deriving DecidableEq, Repr

/-- A call forwarded to the bound GLSPServer (its five operations);
`initializeCall` stands for the server operation named initialize. -/
inductive SCall where
  | initializeCall
  | initializeClientSession
  | disposeClientSession
  | shutdown
  | process (m : Nat)
deriving DecidableEq, Repr

/-- The fields of `NodeGLSPClient`, plus instrumentation.

Source fields: `id` (options.id), `state`, `server` (`_server`),
`serverDeferredVal` (settled value of `serverDeferred`), `startSignal` (settled
outcome of `onStartDeferred`), `stopResolved` (whether `onStopDeferred` is
resolved), `startupTimeout`.

Event-loop bookkeeping for `start`'s race: `raceArmed` (start created the
`timeOut` promise and the `Promise.race`), `timerFired` (the `setTimeout`
callback has run), `raceOutcome` (the settled value of the race, `none` while
pending), `contRan` (the `.then`/`.catch` continuation of the race has run).

Instrumentation: `stopResolveCount` counts the effective (first) resolutions of
`onStopDeferred`; `calls` logs every call forwarded to a bound server. -/
structure Client where
  id : String
  state : ClientState
  server : Option GLSPServer
  serverDeferredVal : Option GLSPServer
  startSignal : Option (Outcome GLSPError Unit)
  stopResolved : Bool
  stopResolveCount : Nat
  startupTimeout : Nat
  raceArmed : Bool
  timerFired : Bool
  raceOutcome : Option (Outcome GLSPError GLSPServer)
  contRan : Bool
  calls : List (Nat × SCall)
deriving DecidableEq, Repr

/-- The constructor: `new NodeGLSPClient({ id })`.  All gates pending, state
Initial, default startupTimeout 1500. -/
def mkClient (id : String) : Client :=
  { id := id
    state := ClientState.Initial
    server := none
    serverDeferredVal := none
    startSignal := none
    stopResolved := false
    stopResolveCount := 0
    startupTimeout := 1500
    raceArmed := false
    timerFired := false
    raceOutcome := none
    contRan := false
    calls := [] }

/-- Embeds `this.serverDeferred.resolve(server)`: a one-shot resolve.  If the
gate already holds a value the call is a no-op.  If the resolve settles the gate
while `start`'s race is armed and still pending, the race settles with the
server (the gate promise wins the race). -/
def resolveServerDeferred (c : Client) (s : GLSPServer) : Client :=
  if c.serverDeferredVal.isNone then
    if c.raceArmed && c.raceOutcome.isNone then
      { c with serverDeferredVal := some s, raceOutcome := some (Outcome.ok s) }
    else { c with serverDeferredVal := some s }
  else c

/-- Embeds `configureServer(server)`.  Throws (`some alreadyRunning`) exactly
when `state === Running`, leaving the client unchanged; otherwise resolves the
server gate. -/
def configureServer (c : Client) (s : GLSPServer) : Client × Option GLSPError :=
  if c.state = ClientState.Running then (c, some GLSPError.alreadyRunning)
  else (resolveServerDeferred c s, none)

/-- Embeds `start()`.  If `state !== Initial` it just returns the existing
`onStartDeferred.promise` (no field changes).  Otherwise it sets
`state = Starting`, arms the deadline timer and races the server gate against
it; if the gate is already resolved the race settles with the server at once.
The `.then`/`.catch` continuation of the race is the separate event
`raceCont`. -/
def start (c : Client) : Client :=
  if c.state ≠ ClientState.Initial then c
  else
    match c.serverDeferredVal with
    | some s =>
        { c with state := ClientState.Starting, raceArmed := true
                 raceOutcome := some (Outcome.ok s) }
    | none => { c with state := ClientState.Starting, raceArmed := true }

/-- Embeds the `setTimeout` callback inside `start`: after `startupTimeout`
milliseconds the timer rejects the `timeOut` promise with the startup-timeout
error.  The rejection settles the race only if the race is still pending. -/
def timerFires (c : Client) : Client :=
  if c.raceArmed && !c.timerFired then
    if c.raceOutcome.isNone then
      { c with timerFired := true, raceOutcome := some (Outcome.err GLSPError.startupTimeout) }
    else { c with timerFired := true }
  else c

/-- Embeds the continuation of `Promise.race([serverDeferred.promise, timeOut])`:
on success store the binding, set `state = Running` and resolve `onStartDeferred`;
on failure set `state = StartFailed` and reject `onStartDeferred`.  The deferred
resolution is one-shot, and the continuation itself runs at most once. -/
def raceCont (c : Client) : Client :=
  if c.contRan then c
  else
    match c.raceOutcome with
    | some (Outcome.ok s) =>
        { c with contRan := true, server := some s, state := ClientState.Running
                 startSignal :=
                   if c.startSignal.isNone then some (Outcome.ok ()) else c.startSignal }
    | some (Outcome.err e) =>
        { c with contRan := true, state := ClientState.StartFailed
                 startSignal :=
                   if c.startSignal.isNone then some (Outcome.err e) else c.startSignal }
    | none => c

/-- The promise returned by one call to `stop()`:
`resolved` — the method body ran to completion (an `async` method returning
`undefined`); `rejected sid` — the body ran but the binding's `shutdown()` threw,
so the returned promise rejects after the `finally` block (there is no `catch`);
`signal` — the early-return branch handed back `onStopDeferred.promise`. -/
inductive StopRet where
  | resolved
  | rejected (sid : Nat)
  | signal
deriving DecidableEq, Repr

/-- Embeds `stop()`.  If `state` is `Stopped` or `Stopping` it returns
`this.onStop()` with no side effects.  Otherwise the body sets
`state = Stopping`, calls `shutdown()` on the binding if one is present
(logged in `calls`), and the `finally` block unconditionally sets
`state = Stopped` and resolves `onStopDeferred`; a throwing `shutdown()`
escapes after the `finally` and rejects the returned promise.  The transient
`Stopping` assignment is recorded by `statePath` below. -/
def stop (c : Client) : Client × StopRet :=
  if c.state = ClientState.Stopped ∨ c.state = ClientState.Stopping then
    (c, StopRet.signal)
  else
    match c.server with
    | some s =>
        ({ c with state := ClientState.Stopped
                  stopResolved := true
                  stopResolveCount :=
                    if c.stopResolved then c.stopResolveCount else c.stopResolveCount + 1
                  calls := c.calls ++ [(s.sid, SCall.shutdown)] },
         if s.shutdownThrows then StopRet.rejected s.sid else StopRet.resolved)
    | none =>
        ({ c with state := ClientState.Stopped
                  stopResolved := true
                  stopResolveCount :=
                    if c.stopResolved then c.stopResolveCount else c.stopResolveCount + 1 },
         StopRet.resolved)

/-- Embeds `checkState()`: throws unless `state === Running`; the thrown error
names the required state. -/
def checkState (c : Client) : Option GLSPError :=
  if c.state ≠ ClientState.Running then some (GLSPError.notRunning c.id ClientState.Running)
  else none

/-- Embeds the `checkedServer` getter: `checkState()` then the defensive
no-server check. -/
def checkedServer (c : Client) : Outcome GLSPError GLSPServer :=
  match checkState c with
  | some e => Outcome.err e
  | none =>
      match c.server with
      | none => Outcome.err (GLSPError.noServerConfigured c.id)
      | some s => Outcome.ok s

/-- A forwarded call through `checkedServer`: on error the client is unchanged
and nothing reaches the binding; on success the call is logged against the
binding. -/
def forwardCall (c : Client) (k : SCall) : Client × Option GLSPError :=
  match checkedServer c with
  | Outcome.err e => (c, some e)
  | Outcome.ok s => ({ c with calls := c.calls ++ [(s.sid, k)] }, none)

/-- Embeds `initializeServer(params)` = `checkedServer.initialize(params)`. -/
def initializeServer (c : Client) : Client × Option GLSPError :=
  forwardCall c SCall.initializeCall

/-- Embeds `initializeClientSession(params)`. -/
def initializeClientSession (c : Client) : Client × Option GLSPError :=
  forwardCall c SCall.initializeClientSession

/-- Embeds `disposeClientSession(params)`. -/
def disposeClientSession (c : Client) : Client × Option GLSPError :=
  forwardCall c SCall.disposeClientSession

/-- Embeds `shutdownServer()` = `checkedServer.shutdown()`. -/
def shutdownServer (c : Client) : Client × Option GLSPError :=
  forwardCall c SCall.shutdown

/-- Embeds `sendActionMessage(message)` = `checkedServer.process(message)`;
messages are identified by a `Nat`. -/
def sendActionMessage (c : Client) (m : Nat) : Client × Option GLSPError :=
  forwardCall c (SCall.process m)

/-- Embeds `setStartupTimeout(ms)`. -/
def setStartupTimeout (c : Client) (ms : Nat) : Client :=
  { c with startupTimeout := ms }

/-- One atomic event of the session's event loop: a public method call, the
deadline timer callback, or the start-race continuation. -/
inductive Event where
  | start
  | configureServer (s : GLSPServer)
  | timerFires
  | raceCont
  | stop
  | send (m : Nat)
deriving DecidableEq, Repr

/-- The client after one event (dropping return values). -/
def stepC (c : Client) : Event → Client
  | Event.start => start c
  | Event.configureServer s => (configureServer c s).1
  | Event.timerFires => timerFires c
  | Event.raceCont => raceCont c
  | Event.stop => (stop c).1
  | Event.send m => (sendActionMessage c m).1

/-- The client after a trace of events. -/
def run (c : Client) : List Event → Client
  | [] => c
  | e :: es => run (stepC c e) es

/-- The successive values assigned to `this.state` while one event executes
(the body of `stop` passes through `Stopping` before `Stopped`). -/
def statePath (c : Client) : Event → List ClientState
  | Event.start => if c.state = ClientState.Initial then [ClientState.Starting] else []
  | Event.stop =>
      if c.state = ClientState.Stopped ∨ c.state = ClientState.Stopping then []
      else [ClientState.Stopping, ClientState.Stopped]
  | Event.raceCont =>
      if c.contRan then []
      else
        match c.raceOutcome with
        | some (Outcome.ok _) => [ClientState.Running]
        | some (Outcome.err _) => [ClientState.StartFailed]
        | none => []
  | _ => []

/-- All values assigned to `this.state` along a trace. -/
def observe (c : Client) : List Event → List ClientState
  | [] => []
  | e :: es => statePath c e ++ observe (stepC c e) es

/-- The full observable state history of a trace: the starting state followed
by every assignment. -/
def observed (c : Client) (es : List Event) : List ClientState :=
  c.state :: observe c es

/-- The transition graph of spec section 4.2. -/
def edge : ClientState → ClientState → Bool
  | ClientState.Initial, ClientState.Starting => true
  | ClientState.Starting, ClientState.Running => true
  | ClientState.Starting, ClientState.StartFailed => true
  | ClientState.Initial, ClientState.Stopping => true
  | ClientState.Starting, ClientState.Stopping => true
  | ClientState.StartFailed, ClientState.Stopping => true
  | ClientState.Running, ClientState.Stopping => true
  | ClientState.Stopping, ClientState.Stopped => true
  | _, _ => false

/-- A state history follows the graph: every consecutive pair is either equal
or an edge. -/
def chainOK : List ClientState → Bool
  | [] => true
  | [_] => true
  | a :: b :: rest => (a == b || edge a b) && chainOK (b :: rest)

/-- Whether an event is a `stop()` call issued while a start is in flight
(the race armed but its continuation not yet run).  `true` means safe. -/
def safeEvent (c : Client) : Event → Bool
  | Event.stop => !c.raceArmed || c.contRan
  | _ => true

/-- A trace never calls `stop()` while a start is in flight. -/
def stopSafeFrom (c : Client) : List Event → Bool
  | [] => true
  | e :: es => safeEvent c e && stopSafeFrom (stepC c e) es

/-- The promises returned by the `stop()` calls of a trace, in call order. -/
def stopOutcomes (c : Client) : List Event → List StopRet
  | [] => []
  | Event.stop :: es => (stop c).2 :: stopOutcomes (stepC c Event.stop) es
  | e :: es => stopOutcomes (stepC c e) es

/-- Number of `stop()` calls in a trace. -/
def countStops (es : List Event) : Nat :=
  (es.filter (fun e => e == Event.stop)).length

/-- How often the binding's `shutdown()` has been invoked. -/
def shutdownCount (c : Client) : Nat :=
  (c.calls.filter (fun p => p.2 == SCall.shutdown)).length

/-- The eventual settlement of the promise returned by the first effective
`stop()` call, as a function of the binding present at that moment. -/
def firstOutcome : Option GLSPServer → StopRet
  | some s => if s.shutdownThrows then StopRet.rejected s.sid else StopRet.resolved
  | none => StopRet.resolved

/-- Shape of the outcome list of N `stop()` calls: the first call runs the body
(resolving or rejecting according to the binding), all later calls hand back the
already-resolved stopped signal. -/
def outcomeShape (srv : Option GLSPServer) : List StopRet → Bool
  | [] => true
  | r :: rest => (r == firstOutcome srv) && rest.all (fun x => x == StopRet.signal)

/-- Whether the promise settles successfully (a `signal` return settles with the
resolution of `onStopDeferred`, which is only ever resolved). -/
def settlesOk : StopRet → Bool
  | StopRet.rejected _ => false
  | _ => true

/-- Core race invariant: while the start race is armed and its continuation has
not run, the state is `Starting`; and a settled race implies an armed race. -/
def InvB (c : Client) : Prop :=
  (c.raceArmed = true → c.contRan = false → c.state = ClientState.Starting) ∧
  (c.raceOutcome ≠ none → c.raceArmed = true)

/-- Invariant for stop-safe traces: the race invariant, the state is never
observed as `Stopping` between events, `onStopDeferred` is resolved exactly when
the state is `Stopped`, and the shutdown/resolution counters match. -/
def K (c : Client) : Prop :=
  InvB c ∧
  c.state ≠ ClientState.Stopping ∧
  (c.stopResolved = true ↔ c.state = ClientState.Stopped) ∧
  shutdownCount c = (if c.stopResolved = true then (if c.server.isNone then 0 else 1) else 0) ∧
  c.stopResolveCount = (if c.stopResolved = true then 1 else 0)

/-- The binding the race continuation stored, if it ran successfully. -/
def contServer (c : Client) : Option GLSPServer :=
  if c.contRan then
    match c.raceOutcome with
    | some (Outcome.ok s) => some s
    | _ => none
  else none

/-! ### Message routing: `actionMessageHandlers`, `createProxy`, `onActionMessage`

Handlers are compared by identity; we embed handler identity as `Nat` and the
message as `Nat`.  `distinctAdd` and `remove` come from
`src/packages/protocol/src/utils/array-util.ts`, which is not part of the
provided sources. -/

/-- Modelled from the spec: `distinctAdd` of utils/array-util (not under src/)
adds a value to the array only if it is not already contained ("registers a
handler ... duplicates forbidden", "Registering the same handler twice has no
additional effect (set semantics)"); new values are appended at the end of the
array. -/
def distinctAdd (l : List Nat) (h : Nat) : List Nat :=
  if h ∈ l then l else l ++ [h]

/-- Modelled from the spec: `remove` of utils/array-util (not under src/)
deletes the given value from the array ("returns a capability to unregister
exactly that handler"); it removes the first occurrence, which under the
no-duplicates invariant is the only occurrence. -/
def removeHandler (l : List Nat) (h : Nat) : List Nat :=
  l.erase h

/-- Embeds `onActionMessage(handler)`: `distinctAdd(this.actionMessageHandlers,
handler)`.  The returned `Disposable` is `removeHandler · h` applied to the
handler list current at dispose time. -/
def onActionMessage (l : List Nat) (h : Nat) : List Nat :=
  distinctAdd l h

/-- Embeds the `process` closure built by `createProxy()`:
if no handler is registered, warn and drop the message; otherwise take the
snapshot `[...this.actionMessageHandlers]` and invoke every handler of the
snapshot, in order, with the message.  A handler body may mutate the live
handler list; `eff h` is the mutation performed by handler `h`'s invocation.
Returns (invocations performed, live handler list afterwards, warned). -/
def proxyProcess (live : List Nat) (m : Nat) (eff : Nat → List Nat → List Nat) :
    List (Nat × Nat) × List Nat × Bool :=
  if live.isEmpty then ([], live, true)
  else (live.map (fun h => (h, m)), live.foldl (fun acc h => eff h acc) live, false)

/-! ### Basic step lemmas -/

@[simp] lemma chainOK_nil : chainOK [] = true := rfl

@[simp] lemma chainOK_singleton (a : ClientState) : chainOK [a] = true := rfl

lemma chainOK_cons_cons (a b : ClientState) (l : List ClientState) :
    chainOK (a :: b :: l) = ((a == b || edge a b) && chainOK (b :: l)) := rfl

lemma chainOK_glue (xs : List ClientState) (a : ClientState) (ys : List ClientState)
    (h1 : chainOK (xs ++ [a]) = true) (h2 : chainOK (a :: ys) = true) :
    chainOK (xs ++ a :: ys) = true := by
  induction xs with
  | nil => exact h2
  | cons x xs ih =>
      cases xs with
      | nil =>
          rw [List.cons_append, List.nil_append, chainOK_cons_cons]
          rw [List.cons_append, List.nil_append, chainOK_cons_cons] at h1
          simp only [Bool.and_eq_true] at h1 ⊢
          exact ⟨h1.1, h2⟩
      | cons y xs' =>
          rw [List.cons_append, List.cons_append, chainOK_cons_cons]
          rw [List.cons_append, List.cons_append, chainOK_cons_cons] at h1
          simp only [Bool.and_eq_true] at h1 ⊢
          refine ⟨h1.1, ?_⟩
          have := ih (by rw [List.cons_append]; exact h1.2)
          rw [List.cons_append] at this
          exact this

lemma start_of_ne_initial (c : Client) (h : c.state ≠ ClientState.Initial) :
    start c = c := by
  unfold start
  simp [h]

lemma state_start (c : Client) (h : c.state = ClientState.Initial) :
    (start c).state = ClientState.Starting := by
  unfold start
  simp only [h]
  repeat' split
  all_goals simp_all

lemma state_configure (c : Client) (s : GLSPServer) :
    ((configureServer c s).1).state = c.state := by
  unfold configureServer resolveServerDeferred
  repeat' split
  all_goals rfl

lemma state_timerFires (c : Client) : (timerFires c).state = c.state := by
  unfold timerFires
  repeat' split
  all_goals rfl

lemma state_send (c : Client) (m : Nat) : ((sendActionMessage c m).1).state = c.state := by
  unfold sendActionMessage forwardCall checkedServer checkState
  repeat' split
  all_goals rfl

lemma raceCont_of_contRan (c : Client) (h : c.contRan = true) : raceCont c = c := by
  unfold raceCont
  simp [h]

lemma raceCont_of_pending (c : Client) (h : c.raceOutcome = none) : raceCont c = c := by
  unfold raceCont
  split
  · rfl
  · simp [h]

lemma state_raceCont_ok (c : Client) (s : GLSPServer) (h : c.raceOutcome = some (Outcome.ok s))
    (hcr : c.contRan = false) : (raceCont c).state = ClientState.Running := by
  unfold raceCont
  simp [h, hcr]

lemma state_raceCont_err (c : Client) (e : GLSPError) (h : c.raceOutcome = some (Outcome.err e))
    (hcr : c.contRan = false) : (raceCont c).state = ClientState.StartFailed := by
  unfold raceCont
  simp [h, hcr]

lemma stop_of_terminal (c : Client)
    (h : c.state = ClientState.Stopped ∨ c.state = ClientState.Stopping) :
    stop c = (c, StopRet.signal) := by
  unfold stop
  simp [h]

lemma state_stop_body (c : Client)
    (h : ¬(c.state = ClientState.Stopped ∨ c.state = ClientState.Stopping)) :
    ((stop c).1).state = ClientState.Stopped := by
  unfold stop
  simp only [h]
  repeat' split
  all_goals simp_all

/-! ### Preservation of the race invariant -/

lemma invB_step (c : Client) (e : Event) (hI : InvB c) (hs : safeEvent c e = true) :
    InvB (stepC c e) := by
  obtain ⟨h1, h2⟩ := hI
  cases e with
  | start =>
      simp only [stepC]
      unfold start
      split
      · exact ⟨h1, h2⟩
      · split
        · exact ⟨fun _ _ => rfl, fun _ => rfl⟩
        · exact ⟨fun _ _ => rfl, fun _ => rfl⟩
  | configureServer s =>
      simp only [stepC]
      unfold configureServer resolveServerDeferred
      split
      · exact ⟨h1, h2⟩
      · split
        · split
          · rename_i hcond
            exact ⟨fun ha hc => h1 ha hc, fun _ => (Bool.and_eq_true _ _ |>.mp hcond).1⟩
          · exact ⟨fun ha hc => h1 ha hc, fun hro => h2 hro⟩
        · exact ⟨h1, h2⟩
  | timerFires =>
      simp only [stepC]
      unfold timerFires
      split
      · rename_i hcond
        split
        · exact ⟨fun ha hc => h1 ha hc, fun _ => (Bool.and_eq_true _ _ |>.mp hcond).1⟩
        · exact ⟨fun ha hc => h1 ha hc, fun hro => h2 hro⟩
      · exact ⟨h1, h2⟩
  | raceCont =>
      simp only [stepC]
      unfold raceCont
      split
      · exact ⟨h1, h2⟩
      · split
        · rename_i heq
          exact ⟨fun _ hc => Bool.noConfusion hc, fun _ => h2 (by rw [heq]; exact Option.noConfusion)⟩
        · rename_i heq
          exact ⟨fun _ hc => Bool.noConfusion hc, fun _ => h2 (by rw [heq]; exact Option.noConfusion)⟩
        · exact ⟨h1, h2⟩
  | stop =>
      simp only [stepC]
      unfold stop
      have hs' : c.raceArmed = false ∨ c.contRan = true := by
        simp only [safeEvent, Bool.or_eq_true, Bool.not_eq_true'] at hs
        exact hs
      split
      · exact ⟨h1, h2⟩
      · have harm : c.raceArmed = true → c.contRan = false → False := by
          intro ha hc
          rcases hs' with h | h
          · rw [ha] at h; exact Bool.noConfusion h
          · rw [hc] at h; exact Bool.noConfusion h
        split
        · exact ⟨fun ha hc => absurd (harm ha hc) not_false, fun hro => h2 hro⟩
        · exact ⟨fun ha hc => absurd (harm ha hc) not_false, fun hro => h2 hro⟩
  | send m =>
      simp only [stepC]
      unfold sendActionMessage forwardCall checkedServer checkState
      repeat' split
      all_goals exact ⟨h1, h2⟩

/-! ### The amended transition-graph invariant (claim C1) -/

lemma chain_master : ∀ (es : List Event) (c : Client), InvB c → stopSafeFrom c es = true →
    chainOK (c.state :: observe c es) = true := by
  intro es
  induction es with
  | nil => intro c _ _; simp [observe]
  | cons e es ih =>
      intro c hI hsafe
      have hsplit : safeEvent c e = true ∧ stopSafeFrom (stepC c e) es = true := by
        simpa [stopSafeFrom, Bool.and_eq_true] using hsafe
      obtain ⟨hse, hstail⟩ := hsplit
      have hrest : chainOK ((stepC c e).state :: observe (stepC c e) es) = true :=
        ih _ (invB_step c e hI hse) hstail
      simp only [observe]
      cases e with
      | start =>
          by_cases hini : c.state = ClientState.Initial
          · have hpath : statePath c Event.start = [ClientState.Starting] := by
              simp [statePath, hini]
            have hst : (stepC c Event.start).state = ClientState.Starting := by
              simp only [stepC]; exact state_start c hini
            rw [hpath, List.singleton_append, hini, chainOK_cons_cons]
            rw [hst] at hrest
            simp [hrest, edge]
          · have hpath : statePath c Event.start = [] := by
              simp [statePath, hini]
            have hc : stepC c Event.start = c := by
              simp only [stepC]; exact start_of_ne_initial c hini
            rw [hpath, List.nil_append, hc]
            rw [hc] at hrest
            exact hrest
      | configureServer s =>
          have hst : (stepC c (Event.configureServer s)).state = c.state := by
            simp only [stepC]; exact state_configure c s
          rw [show statePath c (Event.configureServer s) = [] from rfl, List.nil_append]
          rw [hst] at hrest
          exact hrest
      | timerFires =>
          have hst : (stepC c Event.timerFires).state = c.state := by
            simp only [stepC]; exact state_timerFires c
          rw [show statePath c Event.timerFires = [] from rfl, List.nil_append]
          rw [hst] at hrest
          exact hrest
      | send m =>
          have hst : (stepC c (Event.send m)).state = c.state := by
            simp only [stepC]; exact state_send c m
          rw [show statePath c (Event.send m) = [] from rfl, List.nil_append]
          rw [hst] at hrest
          exact hrest
      | raceCont =>
          by_cases hcr : c.contRan = true
          · have hpath : statePath c Event.raceCont = [] := by
              simp [statePath, hcr]
            have hc : stepC c Event.raceCont = c := by
              simp only [stepC]; exact raceCont_of_contRan c hcr
            rw [hpath, List.nil_append, hc]
            rw [hc] at hrest
            exact hrest
          · have hcrf : c.contRan = false := Bool.eq_false_iff.mpr hcr
            cases hro : c.raceOutcome with
            | none =>
                have hpath : statePath c Event.raceCont = [] := by
                  simp [statePath, hcrf, hro]
                have hc : stepC c Event.raceCont = c := by
                  simp only [stepC]; exact raceCont_of_pending c hro
                rw [hpath, List.nil_append, hc]
                rw [hc] at hrest
                exact hrest
            | some oc =>
                have harm : c.raceArmed = true := hI.2 (by rw [hro]; exact Option.noConfusion)
                have hStarting : c.state = ClientState.Starting := hI.1 harm hcrf
                cases oc with
                | ok s =>
                    have hpath : statePath c Event.raceCont = [ClientState.Running] := by
                      simp [statePath, hcrf, hro]
                    have hst : (stepC c Event.raceCont).state = ClientState.Running := by
                      simp only [stepC]; exact state_raceCont_ok c s hro hcrf
                    rw [hpath, List.singleton_append, hStarting, chainOK_cons_cons]
                    rw [hst] at hrest
                    simp [hrest, edge]
                | err e =>
                    have hpath : statePath c Event.raceCont = [ClientState.StartFailed] := by
                      simp [statePath, hcrf, hro]
                    have hst : (stepC c Event.raceCont).state = ClientState.StartFailed := by
                      simp only [stepC]; exact state_raceCont_err c e hro hcrf
                    rw [hpath, List.singleton_append, hStarting, chainOK_cons_cons]
                    rw [hst] at hrest
                    simp [hrest, edge]
      | stop =>
          by_cases hterm : c.state = ClientState.Stopped ∨ c.state = ClientState.Stopping
          · have hpath : statePath c Event.stop = [] := by
              simp [statePath, hterm]
            have hc : stepC c Event.stop = c := by
              simp only [stepC]; rw [stop_of_terminal c hterm]
            rw [hpath, List.nil_append, hc]
            rw [hc] at hrest
            exact hrest
          · have hpath : statePath c Event.stop = [ClientState.Stopping, ClientState.Stopped] := by
              simp only [statePath]
              rw [if_neg hterm]
            have hst : (stepC c Event.stop).state = ClientState.Stopped := by
              simp only [stepC]; exact state_stop_body c hterm
            have hedge : (c.state == ClientState.Stopping || edge c.state ClientState.Stopping)
                = true := by
              cases hcs : c.state <;> simp_all [edge]
            rw [hpath, List.cons_append, List.singleton_append, chainOK_cons_cons,
              chainOK_cons_cons]
            rw [hst] at hrest
            rw [hedge, hrest]
            decide

/-! ### Frame lemmas and preservation of the stop invariant -/

lemma server_configure (c : Client) (s : GLSPServer) :
    ((configureServer c s).1).server = c.server := by
  unfold configureServer resolveServerDeferred
  repeat' split
  all_goals rfl

lemma stopResolved_configure (c : Client) (s : GLSPServer) :
    ((configureServer c s).1).stopResolved = c.stopResolved := by
  unfold configureServer resolveServerDeferred
  repeat' split
  all_goals rfl

lemma server_timerFires (c : Client) : (timerFires c).server = c.server := by
  unfold timerFires
  repeat' split
  all_goals rfl

lemma stopResolved_timerFires (c : Client) : (timerFires c).stopResolved = c.stopResolved := by
  unfold timerFires
  repeat' split
  all_goals rfl

lemma server_send (c : Client) (m : Nat) : ((sendActionMessage c m).1).server = c.server := by
  unfold sendActionMessage forwardCall checkedServer checkState
  repeat' split
  all_goals rfl

lemma stopResolved_send (c : Client) (m : Nat) :
    ((sendActionMessage c m).1).stopResolved = c.stopResolved := by
  unfold sendActionMessage forwardCall checkedServer checkState
  repeat' split
  all_goals rfl

lemma stopResolved_nonstop (c : Client) (e : Event) (hne : e ≠ Event.stop) :
    (stepC c e).stopResolved = c.stopResolved := by
  cases e with
  | start =>
      simp only [stepC]
      unfold start
      repeat' split
      all_goals rfl
  | configureServer s => exact stopResolved_configure c s
  | timerFires => exact stopResolved_timerFires c
  | raceCont =>
      simp only [stepC]
      unfold raceCont
      repeat' split
      all_goals rfl
  | stop => exact absurd rfl hne
  | send m => exact stopResolved_send c m

lemma shutdownFilter_append (l : List (Nat × SCall)) (x : Nat × SCall) :
    ((l ++ [x]).filter (fun p => p.2 == SCall.shutdown)).length
      = (l.filter (fun p => p.2 == SCall.shutdown)).length
        + (if x.2 = SCall.shutdown then 1 else 0) := by
  rw [List.filter_append, List.length_append]
  congr 1
  by_cases h : x.2 = SCall.shutdown
  · simp [List.filter_cons, h]
  · simp [List.filter_cons, h]

lemma stop_body_ret (c : Client)
    (hterm : ¬(c.state = ClientState.Stopped ∨ c.state = ClientState.Stopping)) :
    (stop c).2 = firstOutcome c.server := by
  unfold stop firstOutcome
  rw [if_neg hterm]
  cases c.server with
  | some s => rfl
  | none => rfl

lemma stop_body_fields (c : Client)
    (hterm : ¬(c.state = ClientState.Stopped ∨ c.state = ClientState.Stopping)) :
    ((stop c).1).server = c.server ∧ ((stop c).1).stopResolved = true := by
  unfold stop
  rw [if_neg hterm]
  cases c.server with
  | some s => exact ⟨rfl, rfl⟩
  | none => exact ⟨rfl, rfl⟩

lemma K_step (c : Client) (e : Event) (hK : K c) (hs : safeEvent c e = true) :
    K (stepC c e) := by
  obtain ⟨⟨h1, h2⟩, hNS, hSR, hSC, hRC⟩ := hK
  cases e with
  | start =>
      simp only [stepC]
      unfold start
      split
      · exact ⟨⟨h1, h2⟩, hNS, hSR, hSC, hRC⟩
      · rename_i hini
        rw [Decidable.not_not] at hini
        have hsrf : c.stopResolved = false := by
          rcases Bool.eq_false_or_eq_true c.stopResolved with h | h
          · have := hSR.mp h
            rw [hini] at this
            exact absurd this (by decide)
          · exact h
        split
        · exact ⟨⟨fun _ _ => rfl, fun _ => rfl⟩, by simp, by simp [hsrf], hSC, hRC⟩
        · exact ⟨⟨fun _ _ => rfl, fun _ => rfl⟩, by simp, by simp [hsrf], hSC, hRC⟩
  | configureServer s =>
      simp only [stepC]
      unfold configureServer resolveServerDeferred
      split
      · exact ⟨⟨h1, h2⟩, hNS, hSR, hSC, hRC⟩
      · split
        · split
          · rename_i hcond
            exact ⟨⟨fun ha hc => h1 ha hc, fun _ => (Bool.and_eq_true _ _ |>.mp hcond).1⟩,
              hNS, hSR, hSC, hRC⟩
          · exact ⟨⟨fun ha hc => h1 ha hc, fun hro => h2 hro⟩, hNS, hSR, hSC, hRC⟩
        · exact ⟨⟨h1, h2⟩, hNS, hSR, hSC, hRC⟩
  | timerFires =>
      simp only [stepC]
      unfold timerFires
      split
      · rename_i hcond
        split
        · exact ⟨⟨fun ha hc => h1 ha hc, fun _ => (Bool.and_eq_true _ _ |>.mp hcond).1⟩,
            hNS, hSR, hSC, hRC⟩
        · exact ⟨⟨fun ha hc => h1 ha hc, fun hro => h2 hro⟩, hNS, hSR, hSC, hRC⟩
      · exact ⟨⟨h1, h2⟩, hNS, hSR, hSC, hRC⟩
  | raceCont =>
      simp only [stepC]
      unfold raceCont
      split
      · exact ⟨⟨h1, h2⟩, hNS, hSR, hSC, hRC⟩
      · rename_i hcr
        have hcrf : c.contRan = false := Bool.eq_false_iff.mpr hcr
        split
        · rename_i s heq
          have harm : c.raceArmed = true := h2 (by rw [heq]; exact Option.noConfusion)
          have hStarting : c.state = ClientState.Starting := h1 harm hcrf
          have hsrf : c.stopResolved = false := by
            rcases Bool.eq_false_or_eq_true c.stopResolved with h | h
            · have := hSR.mp h
              rw [hStarting] at this
              exact absurd this (by decide)
            · exact h
          refine ⟨⟨fun _ hc => Bool.noConfusion hc, fun _ => harm⟩,
            by simp, by simp [hsrf], ?_, ?_⟩
          · show shutdownCount c = if c.stopResolved = true then (if (some s).isNone = true then 0 else 1) else 0
            rw [hsrf] at hSC ⊢
            simpa using hSC
          · show c.stopResolveCount = if c.stopResolved = true then 1 else 0
            exact hRC
        · rename_i e heq
          have harm : c.raceArmed = true := h2 (by rw [heq]; exact Option.noConfusion)
          have hStarting : c.state = ClientState.Starting := h1 harm hcrf
          have hsrf : c.stopResolved = false := by
            rcases Bool.eq_false_or_eq_true c.stopResolved with h | h
            · have := hSR.mp h
              rw [hStarting] at this
              exact absurd this (by decide)
            · exact h
          exact ⟨⟨fun _ hc => Bool.noConfusion hc, fun _ => harm⟩,
            by simp, by simp [hsrf], hSC, hRC⟩
        · exact ⟨⟨h1, h2⟩, hNS, hSR, hSC, hRC⟩
  | stop =>
      simp only [stepC]
      unfold stop
      have hs' : c.raceArmed = false ∨ c.contRan = true := by
        simp only [safeEvent, Bool.or_eq_true, Bool.not_eq_true'] at hs
        exact hs
      split
      · exact ⟨⟨h1, h2⟩, hNS, hSR, hSC, hRC⟩
      · rename_i hterm
        have hsrf : c.stopResolved = false := by
          rcases Bool.eq_false_or_eq_true c.stopResolved with h | h
          · exact absurd (Or.inl (hSR.mp h)) hterm
          · exact h
        have harm : c.raceArmed = true → c.contRan = false → False := by
          intro ha hc
          rcases hs' with h | h
          · rw [ha] at h; exact Bool.noConfusion h
          · rw [hc] at h; exact Bool.noConfusion h
        have hSC0 : (c.calls.filter (fun p => p.2 == SCall.shutdown)).length = 0 := by
          have h9 := hSC
          rw [hsrf, if_neg (by simp)] at h9
          exact h9
        have hRC0 : c.stopResolveCount = 0 := by
          have h9 := hRC
          rw [hsrf, if_neg (by simp)] at h9
          exact h9
        split
        · rename_i s heq
          refine ⟨⟨fun ha hc => absurd (harm ha hc) not_false, fun hro => h2 hro⟩,
            by simp, by simp, ?_, ?_⟩
          · show ((c.calls ++ [(s.sid, SCall.shutdown)]).filter
                (fun p => p.2 == SCall.shutdown)).length
              = if (true : Bool) = true then (if c.server.isNone = true then 0 else 1) else 0
            rw [shutdownFilter_append, hSC0, heq]
            simp
          · show (if c.stopResolved = true then c.stopResolveCount else c.stopResolveCount + 1)
              = if (true : Bool) = true then 1 else 0
            simp [hsrf, hRC0]
        · rename_i heq
          refine ⟨⟨fun ha hc => absurd (harm ha hc) not_false, fun hro => h2 hro⟩,
            by simp, by simp, ?_, ?_⟩
          · show (c.calls.filter (fun p => p.2 == SCall.shutdown)).length
              = if (true : Bool) = true then (if c.server.isNone = true then 0 else 1) else 0
            rw [hSC0, heq]
            simp
          · show (if c.stopResolved = true then c.stopResolveCount else c.stopResolveCount + 1)
              = if (true : Bool) = true then 1 else 0
            simp [hsrf, hRC0]
  | send m =>
      simp only [stepC]
      unfold sendActionMessage forwardCall
      split
      · exact ⟨⟨h1, h2⟩, hNS, hSR, hSC, hRC⟩
      · rename_i s heq
        refine ⟨⟨h1, h2⟩, hNS, hSR, ?_, hRC⟩
        have hSC0 : (c.calls.filter (fun p => p.2 == SCall.shutdown)).length
            = if c.stopResolved = true then (if c.server.isNone = true then 0 else 1) else 0 := hSC
        show ((c.calls ++ [(s.sid, SCall.process m)]).filter
            (fun p => p.2 == SCall.shutdown)).length
          = if c.stopResolved = true then (if c.server.isNone = true then 0 else 1) else 0
        rw [shutdownFilter_append, hSC0]
        simp

lemma stepA (c : Client) (e : Event) (hK : K c) (hsr : c.stopResolved = true) :
    (stepC c e).server = c.server ∧ (stepC c e).stopResolved = true := by
  obtain ⟨⟨h1, h2⟩, hNS, hSR, hSC, hRC⟩ := hK
  have hStopped : c.state = ClientState.Stopped := hSR.mp hsr
  cases e with
  | start =>
      have hc : start c = c := start_of_ne_initial c (by rw [hStopped]; decide)
      simp only [stepC, hc]
      exact ⟨trivial, hsr⟩
  | configureServer s =>
      exact ⟨server_configure c s, by
        show ((configureServer c s).1).stopResolved = true
        rw [stopResolved_configure]; exact hsr⟩
  | timerFires =>
      exact ⟨server_timerFires c, by
        show (timerFires c).stopResolved = true
        rw [stopResolved_timerFires]; exact hsr⟩
  | raceCont =>
      have hc : raceCont c = c := by
        cases hro : c.raceOutcome with
        | none => exact raceCont_of_pending c hro
        | some oc =>
            have harm : c.raceArmed = true := h2 (by rw [hro]; exact Option.noConfusion)
            rcases Bool.eq_false_or_eq_true c.contRan with h | h
            · exact raceCont_of_contRan c h
            · exfalso
              have := h1 harm h
              rw [hStopped] at this
              exact absurd this (by decide)
      simp only [stepC, hc]
      exact ⟨trivial, hsr⟩
  | stop =>
      have hc : stop c = (c, StopRet.signal) := stop_of_terminal c (Or.inl hStopped)
      simp only [stepC, hc]
      exact ⟨trivial, hsr⟩
  | send m =>
      exact ⟨server_send c m, by
        show ((sendActionMessage c m).1).stopResolved = true
        rw [stopResolved_send]; exact hsr⟩

lemma countStops_cons_stop (es : List Event) :
    countStops (Event.stop :: es) = countStops es + 1 := by
  unfold countStops
  rw [List.filter_cons]
  simp

lemma countStops_cons_ne (e : Event) (es : List Event) (h : e ≠ Event.stop) :
    countStops (e :: es) = countStops es := by
  unfold countStops
  rw [List.filter_cons]
  simp [h]

lemma stopOutcomes_length : ∀ (es : List Event) (c : Client),
    (stopOutcomes c es).length = countStops es := by
  intro es
  induction es with
  | nil => intro c; rfl
  | cons e es ih =>
      intro c
      cases e with
      | stop =>
          show ((stop c).2 :: stopOutcomes (stepC c Event.stop) es).length
            = countStops (Event.stop :: es)
          rw [List.length_cons, ih, countStops_cons_stop]
      | start =>
          show (stopOutcomes (stepC c Event.start) es).length = countStops (Event.start :: es)
          rw [ih, countStops_cons_ne _ _ (fun h => Event.noConfusion h)]
      | configureServer s =>
          show (stopOutcomes (stepC c (Event.configureServer s)) es).length
            = countStops (Event.configureServer s :: es)
          rw [ih, countStops_cons_ne _ _ (fun h => Event.noConfusion h)]
      | timerFires =>
          show (stopOutcomes (stepC c Event.timerFires) es).length
            = countStops (Event.timerFires :: es)
          rw [ih, countStops_cons_ne _ _ (fun h => Event.noConfusion h)]
      | raceCont =>
          show (stopOutcomes (stepC c Event.raceCont) es).length
            = countStops (Event.raceCont :: es)
          rw [ih, countStops_cons_ne _ _ (fun h => Event.noConfusion h)]
      | send m =>
          show (stopOutcomes (stepC c (Event.send m)) es).length
            = countStops (Event.send m :: es)
          rw [ih, countStops_cons_ne _ _ (fun h => Event.noConfusion h)]

lemma stop_master : ∀ (es : List Event) (c : Client), K c → stopSafeFrom c es = true →
    K (run c es) ∧
    (c.stopResolved = true →
        (run c es).server = c.server ∧ (run c es).stopResolved = true ∧
        (stopOutcomes c es).all (fun x => x == StopRet.signal) = true) ∧
    (c.stopResolved = false →
        outcomeShape ((run c es).server) (stopOutcomes c es) = true ∧
        (stopOutcomes c es ≠ [] → (run c es).stopResolved = true)) := by
  intro es
  induction es with
  | nil =>
      intro c hK _
      exact ⟨hK, fun hsr => ⟨rfl, hsr, rfl⟩, fun _ => ⟨rfl, fun hne => absurd rfl hne⟩⟩
  | cons e es ih =>
      intro c hK hsafe
      have hsplit : safeEvent c e = true ∧ stopSafeFrom (stepC c e) es = true := by
        simpa [stopSafeFrom, Bool.and_eq_true] using hsafe
      obtain ⟨hse, hstail⟩ := hsplit
      have hK' : K (stepC c e) := K_step c e hK hse
      have IH := ih (stepC c e) hK' hstail
      refine ⟨IH.1, ?_, ?_⟩
      · intro hsr
        have hA := stepA c e hK hsr
        have hIH2 := IH.2.1 hA.2
        refine ⟨?_, hIH2.2.1, ?_⟩
        · show (run (stepC c e) es).server = c.server
          rw [hIH2.1, hA.1]
        · cases e with
          | stop =>
              have hStopped : c.state = ClientState.Stopped := hK.2.2.1.mp hsr
              have hsig : stop c = (c, StopRet.signal) := stop_of_terminal c (Or.inl hStopped)
              show (((stop c).2 == StopRet.signal) &&
                  (stopOutcomes (stepC c Event.stop) es).all (fun x => x == StopRet.signal))
                = true
              refine Bool.and_eq_true _ _ |>.mpr ⟨?_, hIH2.2.2⟩
              rw [hsig]
              rfl
          | start => exact hIH2.2.2
          | configureServer s => exact hIH2.2.2
          | timerFires => exact hIH2.2.2
          | raceCont => exact hIH2.2.2
          | send m => exact hIH2.2.2
      · intro hsrf
        cases e with
        | stop =>
            have hterm : ¬(c.state = ClientState.Stopped ∨ c.state = ClientState.Stopping) := by
              rintro (h | h)
              · have := hK.2.2.1.mpr h
                rw [hsrf] at this
                exact Bool.noConfusion this
              · exact hK.2.1 h
            have hfields := stop_body_fields c hterm
            have hret := stop_body_ret c hterm
            have hIH2 := IH.2.1 hfields.2
            have hsrv : (run (stepC c Event.stop) es).server = c.server := by
              rw [hIH2.1]
              exact hfields.1
            constructor
            · show (((stop c).2 == firstOutcome ((run (stepC c Event.stop) es).server)) &&
                  (stopOutcomes (stepC c Event.stop) es).all (fun x => x == StopRet.signal))
                = true
              refine Bool.and_eq_true _ _ |>.mpr ⟨?_, hIH2.2.2⟩
              rw [hret, hsrv]
              simp
            · intro _
              exact hIH2.2.1
        | start =>
            have hsrf' : (stepC c Event.start).stopResolved = false := by
              rw [stopResolved_nonstop c _ (fun h => Event.noConfusion h)]
              exact hsrf
            exact IH.2.2 hsrf'
        | configureServer s =>
            have hsrf' : (stepC c (Event.configureServer s)).stopResolved = false := by
              rw [stopResolved_nonstop c _ (fun h => Event.noConfusion h)]
              exact hsrf
            exact IH.2.2 hsrf'
        | timerFires =>
            have hsrf' : (stepC c Event.timerFires).stopResolved = false := by
              rw [stopResolved_nonstop c _ (fun h => Event.noConfusion h)]
              exact hsrf
            exact IH.2.2 hsrf'
        | raceCont =>
            have hsrf' : (stepC c Event.raceCont).stopResolved = false := by
              rw [stopResolved_nonstop c _ (fun h => Event.noConfusion h)]
              exact hsrf
            exact IH.2.2 hsrf'
        | send m =>
            have hsrf' : (stepC c (Event.send m)).stopResolved = false := by
              rw [stopResolved_nonstop c _ (fun h => Event.noConfusion h)]
              exact hsrf
            exact IH.2.2 hsrf'

/-! ### The binding is exactly what a successful race continuation stored -/

lemma contP_step (c : Client) (e : Event)
    (h1 : c.server = contServer c)
    (h2 : c.contRan = true → c.raceOutcome ≠ none)
    (h3 : c.contRan = true → c.state ≠ ClientState.Initial) :
    (stepC c e).server = contServer (stepC c e) ∧
    ((stepC c e).contRan = true → (stepC c e).raceOutcome ≠ none) ∧
    ((stepC c e).contRan = true → (stepC c e).state ≠ ClientState.Initial) := by
  cases e with
  | start =>
      simp only [stepC]
      unfold start
      split
      · exact ⟨h1, h2, h3⟩
      · rename_i hini
        rw [Decidable.not_not] at hini
        have hcrf : c.contRan = false := by
          rcases Bool.eq_false_or_eq_true c.contRan with h | h
          · exact absurd hini (h3 h)
          · exact h
        have h1' : c.server = none := by
          rw [h1]
          unfold contServer
          rw [if_neg (by rw [hcrf]; exact Bool.noConfusion)]
        split
        · refine ⟨?_, ?_, ?_⟩
          · show c.server = contServer _
            unfold contServer
            rw [if_neg (by show ¬(c.contRan = true); rw [hcrf]; exact Bool.noConfusion)]
            exact h1'
          · intro hc
            rw [hcrf] at hc
            exact Bool.noConfusion hc
          · intro _
            exact (by decide : ClientState.Starting ≠ ClientState.Initial)
        · refine ⟨?_, ?_, ?_⟩
          · show c.server = contServer _
            unfold contServer
            rw [if_neg (by show ¬(c.contRan = true); rw [hcrf]; exact Bool.noConfusion)]
            exact h1'
          · intro hc
            rw [hcrf] at hc
            exact Bool.noConfusion hc
          · intro _
            exact (by decide : ClientState.Starting ≠ ClientState.Initial)
  | configureServer s =>
      simp only [stepC]
      unfold configureServer resolveServerDeferred
      split
      · exact ⟨h1, h2, h3⟩
      · split
        · split
          · rename_i hcond
            have hron : c.raceOutcome = none :=
              Option.isNone_iff_eq_none.mp (Bool.and_eq_true _ _ |>.mp hcond).2
            have hcrf : c.contRan = false := by
              rcases Bool.eq_false_or_eq_true c.contRan with h | h
              · exact absurd hron (h2 h)
              · exact h
            refine ⟨?_, ?_, fun hc => h3 hc⟩
            · show c.server = contServer _
              unfold contServer
              rw [if_neg (by show ¬(c.contRan = true); rw [hcrf]; exact Bool.noConfusion)]
              rw [h1]
              unfold contServer
              rw [if_neg (by rw [hcrf]; exact Bool.noConfusion)]
            · intro hc
              rw [hcrf] at hc
              exact Bool.noConfusion hc
          · exact ⟨h1, h2, h3⟩
        · exact ⟨h1, h2, h3⟩
  | timerFires =>
      simp only [stepC]
      unfold timerFires
      split
      · split
        · rename_i hnone
          have hron : c.raceOutcome = none := Option.isNone_iff_eq_none.mp hnone
          have hcrf : c.contRan = false := by
            rcases Bool.eq_false_or_eq_true c.contRan with h | h
            · exact absurd hron (h2 h)
            · exact h
          refine ⟨?_, ?_, fun hc => h3 hc⟩
          · show c.server = contServer _
            unfold contServer
            rw [if_neg (by show ¬(c.contRan = true); rw [hcrf]; exact Bool.noConfusion)]
            rw [h1]
            unfold contServer
            rw [if_neg (by rw [hcrf]; exact Bool.noConfusion)]
          · intro hc
            rw [hcrf] at hc
            exact Bool.noConfusion hc
        · exact ⟨h1, h2, h3⟩
      · exact ⟨h1, h2, h3⟩
  | raceCont =>
      simp only [stepC]
      unfold raceCont
      split
      · exact ⟨h1, h2, h3⟩
      · split
        · rename_i s heq
          refine ⟨?_, ?_, ?_⟩
          · show some s = contServer _
            unfold contServer
            rw [if_pos rfl, heq]
          · intro _
            rw [heq]
            exact Option.noConfusion
          · intro _
            exact (by decide : ClientState.Running ≠ ClientState.Initial)
        · rename_i e heq
          refine ⟨?_, ?_, ?_⟩
          · show c.server = contServer _
            unfold contServer
            rw [if_pos rfl, heq]
            rw [h1]
            unfold contServer
            split
            · rename_i hcr
              rw [heq]
            · rfl
          · intro _
            rw [heq]
            exact Option.noConfusion
          · intro _
            exact (by decide : ClientState.StartFailed ≠ ClientState.Initial)
        · exact ⟨h1, h2, h3⟩
  | stop =>
      simp only [stepC]
      unfold stop
      split
      · exact ⟨h1, h2, h3⟩
      · split
        · refine ⟨?_, fun hc => h2 hc, fun _ =>
            (by decide : ClientState.Stopped ≠ ClientState.Initial)⟩
          show c.server = contServer _
          unfold contServer at h1 ⊢
          exact h1
        · refine ⟨?_, fun hc => h2 hc, fun _ =>
            (by decide : ClientState.Stopped ≠ ClientState.Initial)⟩
          show c.server = contServer _
          unfold contServer at h1 ⊢
          exact h1
  | send m =>
      simp only [stepC]
      unfold sendActionMessage forwardCall
      split
      · exact ⟨h1, h2, h3⟩
      · refine ⟨?_, fun hc => h2 hc, fun hc => h3 hc⟩
        show c.server = contServer _
        unfold contServer at h1 ⊢
        exact h1

lemma server_master : ∀ (es : List Event) (c : Client),
    c.server = contServer c →
    (c.contRan = true → c.raceOutcome ≠ none) →
    (c.contRan = true → c.state ≠ ClientState.Initial) →
    (run c es).server = contServer (run c es) := by
  intro es
  induction es with
  | nil => intro c h1 _ _; exact h1
  | cons e es ih =>
      intro c h1 h2 h3
      have hstep := contP_step c e h1 h2 h3
      exact ih (stepC c e) hstep.1 hstep.2.1 hstep.2.2

/-! ### Helpers for the claim theorems -/

lemma invB_mkClient (id : String) : InvB (mkClient id) :=
  ⟨fun ha _ => Bool.noConfusion ha, fun hro => absurd rfl hro⟩

lemma K_mkClient (id : String) : K (mkClient id) := by
  refine ⟨invB_mkClient id, ?_, ?_, ?_, ?_⟩
  · intro h
    exact ClientState.noConfusion h
  · exact ⟨fun h => Bool.noConfusion h, fun h => ClientState.noConfusion h⟩
  · show ((0 : Nat) = if (false : Bool) = true then (if true = true then 0 else 1) else 0)
    simp
  · show ((0 : Nat) = if (false : Bool) = true then 1 else 0)
    simp

lemma stopResolved_run_nonstop : ∀ (es : List Event) (c : Client), countStops es = 0 →
    (run c es).stopResolved = c.stopResolved := by
  intro es
  induction es with
  | nil => intro c _; rfl
  | cons e es ih =>
      intro c hz
      by_cases he : e = Event.stop
      · subst he
        rw [countStops_cons_stop] at hz
        exact absurd hz (by simp)
      · rw [countStops_cons_ne e es he] at hz
        show (run (stepC c e) es).stopResolved = c.stopResolved
        rw [ih (stepC c e) hz, stopResolved_nonstop c e he]

lemma outcomeShape_settlesOk (srv : Option GLSPServer) (outs : List StopRet)
    (hshape : outcomeShape srv outs = true)
    (hok : ∀ s, srv = some s → s.shutdownThrows = false) :
    ∀ r ∈ outs, settlesOk r = true := by
  cases outs with
  | nil => intro r hr; exact absurd hr (List.not_mem_nil r)
  | cons r rest =>
      have hsplit : (r == firstOutcome srv) = true ∧
          (rest.all (fun x => x == StopRet.signal)) = true :=
        Bool.and_eq_true _ _ |>.mp hshape
      have hr : r = firstOutcome srv := by
        have := hsplit.1
        exact beq_iff_eq.mp this
      intro x hx
      rcases List.mem_cons.mp hx with h | h
      · subst h
        rw [hr]
        cases hsv : srv with
        | none => rfl
        | some s =>
            show settlesOk (if s.shutdownThrows = true then StopRet.rejected s.sid
              else StopRet.resolved) = true
            rw [hok s hsv]
            rfl
      · have := List.all_eq_true.mp hsplit.2 x h
        have hx2 : x = StopRet.signal := beq_iff_eq.mp this
        rw [hx2]
        rfl

lemma count_map_pair (l : List Nat) (m h : Nat) :
    (l.map (fun x => (x, m))).count (h, m) = l.count h := by
  induction l with
  | nil => rfl
  | cons a l ih => simp [List.count_cons, ih, Prod.ext_iff]

lemma nodup_distinctAdd (l : List Nat) (h : Nat) (hn : l.Nodup) : (distinctAdd l h).Nodup := by
  unfold distinctAdd
  split
  · exact hn
  · rename_i hnm
    simp [List.nodup_append, hn, hnm]

lemma forwardCall_notRunning (c : Client) (k : SCall) (h : c.state ≠ ClientState.Running) :
    forwardCall c k = (c, some (GLSPError.notRunning c.id ClientState.Running)) := by
  unfold forwardCall checkedServer checkState
  simp [h]

lemma forwardCall_noServer (c : Client) (k : SCall) (h : c.state = ClientState.Running)
    (hsv : c.server = none) :
    forwardCall c k = (c, some (GLSPError.noServerConfigured c.id)) := by
  unfold forwardCall checkedServer checkState
  simp [h, hsv]

/-! ### Claim C1: the state transition graph -/

/-- Claim C1, counterexample.  The trace start(); stop(); configureServer(s);
race-continuation drives the observed state history through
Initial, Starting, Stopping, Stopped, Running: the step Stopped to Running is
outside the transition graph, so the claim "state only ever changes along the
transition graph, and once Stopped it never later becomes Running" is false on
the code.  stop() does not cancel the start race, and the race continuation
runs unconditionally. -/
theorem state_graph_counterexample :
    chainOK (observed (mkClient "n")
        [Event.start, Event.stop, Event.configureServer ⟨7, false⟩, Event.raceCont]) = false ∧
    observed (mkClient "n")
        [Event.start, Event.stop, Event.configureServer ⟨7, false⟩, Event.raceCont]
      = [ClientState.Initial, ClientState.Starting, ClientState.Stopping, ClientState.Stopped,
         ClientState.Running] ∧
    ¬ (∀ (id : String) (es : List Event), chainOK (observed (mkClient id) es) = true) := by
  refine ⟨by decide, by decide, fun hall => ?_⟩
  exact absurd (hall "n" [Event.start, Event.stop, Event.configureServer ⟨7, false⟩,
    Event.raceCont]) (by decide)

/-- Claim C1, amended: in every execution in which stop() is never called while
a start is in flight (the race armed but its continuation not yet run), the
observed value of state changes only along the transition graph of spec 4.2;
in particular Stopped and StartFailed are then never followed by Running. -/
theorem state_graph_amended (id : String) (es : List Event)
    (hsafe : stopSafeFrom (mkClient id) es = true) :
    chainOK (observed (mkClient id) es) = true :=
  chain_master es (mkClient id) (invB_mkClient id) hsafe

/-- Witness for the amended claim C1 at a concrete stop-safe trace covering the
full lifecycle. -/
theorem state_graph_amended_witness :
    stopSafeFrom (mkClient "w")
        [Event.start, Event.configureServer ⟨1, false⟩, Event.raceCont, Event.stop,
         Event.timerFires] = true ∧
    chainOK (observed (mkClient "w")
        [Event.start, Event.configureServer ⟨1, false⟩, Event.raceCont, Event.stop,
         Event.timerFires]) = true :=
  ⟨by decide, state_graph_amended "w"
    [Event.start, Event.configureServer ⟨1, false⟩, Event.raceCont, Event.stop,
     Event.timerFires] (by decide)⟩

/-! ### Claim C7: the binding reference versus the lifecycle state -/

/-- Claim C7, counterexample.  After a successful start followed by stop(),
the state is Stopped but the binding is still the attached server: stop() never
clears `_server`, so "the binding is null whenever state is Stopped" is false
on the code. -/
theorem binding_null_when_stopped_counterexample :
    (run (mkClient "x")
        [Event.start, Event.configureServer ⟨7, false⟩, Event.raceCont, Event.stop]).state
      = ClientState.Stopped ∧
    (run (mkClient "x")
        [Event.start, Event.configureServer ⟨7, false⟩, Event.raceCont, Event.stop]).server
      = some ⟨7, false⟩ ∧
    ¬ ((run (mkClient "x")
          [Event.start, Event.configureServer ⟨7, false⟩, Event.raceCont, Event.stop]).state
        = ClientState.Stopped →
       (run (mkClient "x")
          [Event.start, Event.configureServer ⟨7, false⟩, Event.raceCont, Event.stop]).server
        = none) := by
  refine ⟨by decide, by decide, fun himp => ?_⟩
  exact absurd (himp (by decide)) (by decide)

/-- Claim C7, amended: at every point of every execution the binding reference
equals exactly the server stored by a successfully completed start race
(`contServer`): it is none until the race continuation runs with an attached
server, becomes that server at the transition to Running, and is never cleared
afterwards - it stays non-null through Stopping and Stopped. -/
theorem binding_is_race_result_amended (id : String) (es : List Event) :
    (run (mkClient id) es).server = contServer (run (mkClient id) es) :=
  server_master es (mkClient id) rfl (fun h => Bool.noConfusion h) (fun h => Bool.noConfusion h)

/-! ### Claim C2: stop() when the binding's shutdown() throws -/

/-- Claim C2, counterexample.  On a running session whose binding's shutdown()
throws, the first call to stop() does NOT complete with a resolved result: the
body has try/finally with no catch, so the returned promise rejects with the
shutdown error (here `rejected 7`).  Teardown still happens: the state is
Stopped and the stopped signal is resolved. -/
theorem stop_resolves_counterexample :
    (stop (run (mkClient "x")
        [Event.start, Event.configureServer ⟨7, true⟩, Event.raceCont])).2
      = StopRet.rejected 7 ∧
    settlesOk (stop (run (mkClient "x")
        [Event.start, Event.configureServer ⟨7, true⟩, Event.raceCont])).2 = false ∧
    ((stop (run (mkClient "x")
        [Event.start, Event.configureServer ⟨7, true⟩, Event.raceCont])).1).state
      = ClientState.Stopped ∧
    ((stop (run (mkClient "x")
        [Event.start, Event.configureServer ⟨7, true⟩, Event.raceCont])).1).stopResolved
      = true := by
  decide

/-- Claim C2, amended: when the bound server's shutdown() throws, the first
call to stop() still runs teardown to completion - afterwards the state is
Stopped, the stopped signal is resolved, and shutdown was invoked - but the
promise returned by that first call REJECTS with the shutdown error instead of
resolving (the try/finally has no catch, so the failure is not swallowed). -/
theorem stop_shutdown_throw_amended (c : Client) (s : GLSPServer)
    (hterm : ¬(c.state = ClientState.Stopped ∨ c.state = ClientState.Stopping))
    (hsv : c.server = some s) (hthrow : s.shutdownThrows = true) :
    (stop c).2 = StopRet.rejected s.sid ∧
    settlesOk (stop c).2 = false ∧
    ((stop c).1).state = ClientState.Stopped ∧
    ((stop c).1).stopResolved = true ∧
    ((stop c).1).calls = c.calls ++ [(s.sid, SCall.shutdown)] := by
  unfold stop
  rw [if_neg hterm, hsv]
  simp [hthrow, settlesOk]

/-- Witness for the amended claim C2 at a concrete running session with a
throwing binding. -/
theorem stop_shutdown_throw_amended_witness :
    (stop (run (mkClient "v")
        [Event.start, Event.configureServer ⟨9, true⟩, Event.raceCont])).2
      = StopRet.rejected 9 ∧
    ((stop (run (mkClient "v")
        [Event.start, Event.configureServer ⟨9, true⟩, Event.raceCont])).1).state
      = ClientState.Stopped :=
  have h := stop_shutdown_throw_amended
    (run (mkClient "v") [Event.start, Event.configureServer ⟨9, true⟩, Event.raceCont])
    ⟨9, true⟩ (by decide) (by decide) (by decide)
  ⟨h.1, h.2.2.1⟩

/-! ### Claim C3: idempotent stop and the outcomes of repeated stop() calls -/

/-- Claim C3, counterexample.  Two stop() calls on a session whose binding's
shutdown() throws produce signals with DIFFERENT outcomes: the first rejects
with the shutdown error, the second hands back the resolved stopped signal; so
"all N signals settle with the same outcome" is false on the code.  (Shutdown
is still invoked exactly once and the stopped signal resolves exactly once.) -/
theorem stop_same_outcome_counterexample :
    stopOutcomes (mkClient "x")
        [Event.start, Event.configureServer ⟨7, true⟩, Event.raceCont, Event.stop, Event.stop]
      = [StopRet.rejected 7, StopRet.signal] ∧
    (run (mkClient "x")
        [Event.start, Event.configureServer ⟨7, true⟩, Event.raceCont, Event.stop,
         Event.stop]).stopResolved = true ∧
    settlesOk (StopRet.rejected 7) = false ∧
    settlesOk StopRet.signal = true ∧
    shutdownCount (run (mkClient "x")
        [Event.start, Event.configureServer ⟨7, true⟩, Event.raceCont, Event.stop,
         Event.stop]) = 1 := by
  decide

/-- Claim C3, amended: in every execution in which stop() is never called while
a start is in flight, N = countStops calls to stop() invoke the binding's
shutdown() exactly once when a binding is attached and zero times when none is
(and zero when N = 0), the stopped signal resolves exactly once not more, the
outcome list is one body outcome followed by N-1 returns of the resolved
stopped signal, and all N signals settle with the same successful outcome
PROVIDED the attached binding's shutdown() does not throw (if it throws, the
first signal rejects while the remaining N-1 resolve). -/
theorem stop_idempotent_amended (id : String) (es : List Event)
    (hsafe : stopSafeFrom (mkClient id) es = true) :
    (stopOutcomes (mkClient id) es).length = countStops es ∧
    shutdownCount (run (mkClient id) es)
      = (if 1 ≤ countStops es then
          (if (run (mkClient id) es).server.isNone = true then 0 else 1) else 0) ∧
    (run (mkClient id) es).stopResolveCount = (if 1 ≤ countStops es then 1 else 0) ∧
    outcomeShape ((run (mkClient id) es).server) (stopOutcomes (mkClient id) es) = true ∧
    ((∀ s, (run (mkClient id) es).server = some s → s.shutdownThrows = false) →
        ∀ r ∈ stopOutcomes (mkClient id) es, settlesOk r = true) := by
  have hM := stop_master es (mkClient id) (K_mkClient id) hsafe
  have hK := hM.1
  obtain ⟨hshape, hres⟩ := hM.2.2 rfl
  have hlen := stopOutcomes_length es (mkClient id)
  refine ⟨hlen, ?_, ?_, hshape, fun hok => outcomeShape_settlesOk _ _ hshape hok⟩
  · by_cases hN : 1 ≤ countStops es
    · have hne : stopOutcomes (mkClient id) es ≠ [] := by
        intro h0
        rw [h0] at hlen
        simp at hlen
        omega
      have hsr := hres hne
      have hSC := hK.2.2.2.1
      rw [hsr, if_pos rfl] at hSC
      rw [hSC, if_pos hN]
    · have h0 : countStops es = 0 := by omega
      have hsr : (run (mkClient id) es).stopResolved = false := by
        rw [stopResolved_run_nonstop es (mkClient id) h0]
        rfl
      have hSC := hK.2.2.2.1
      rw [hsr, if_neg (by simp)] at hSC
      rw [hSC, if_neg hN]
  · by_cases hN : 1 ≤ countStops es
    · have hne : stopOutcomes (mkClient id) es ≠ [] := by
        intro h0
        rw [h0] at hlen
        simp at hlen
        omega
      have hsr := hres hne
      have hRC := hK.2.2.2.2
      rw [hsr, if_pos rfl] at hRC
      rw [hRC, if_pos hN]
    · have h0 : countStops es = 0 := by omega
      have hsr : (run (mkClient id) es).stopResolved = false := by
        rw [stopResolved_run_nonstop es (mkClient id) h0]
        rfl
      have hRC := hK.2.2.2.2
      rw [hsr, if_neg (by simp)] at hRC
      rw [hRC, if_neg hN]

/-- Witness for the amended claim C3 at a concrete trace with three stop()
calls on a running session with a non-throwing binding. -/
theorem stop_idempotent_amended_witness :
    stopSafeFrom (mkClient "z")
        [Event.start, Event.configureServer ⟨3, false⟩, Event.raceCont, Event.stop,
         Event.stop, Event.stop] = true ∧
    (stopOutcomes (mkClient "z")
        [Event.start, Event.configureServer ⟨3, false⟩, Event.raceCont, Event.stop,
         Event.stop, Event.stop]).length
      = countStops [Event.start, Event.configureServer ⟨3, false⟩, Event.raceCont, Event.stop,
         Event.stop, Event.stop] ∧
    outcomeShape ((run (mkClient "z")
        [Event.start, Event.configureServer ⟨3, false⟩, Event.raceCont, Event.stop,
         Event.stop, Event.stop]).server)
      (stopOutcomes (mkClient "z")
        [Event.start, Event.configureServer ⟨3, false⟩, Event.raceCont, Event.stop,
         Event.stop, Event.stop]) = true :=
  ⟨by decide,
   (stop_idempotent_amended "z"
     [Event.start, Event.configureServer ⟨3, false⟩, Event.raceCont, Event.stop,
      Event.stop, Event.stop] (by decide)).1,
   (stop_idempotent_amended "z"
     [Event.start, Event.configureServer ⟨3, false⟩, Event.raceCont, Event.stop,
      Event.stop, Event.stop] (by decide)).2.2.2.1⟩

/-! ### Claim C4: start() races attachment against the deadline -/

/-- Claim C4, confirmed: start() is idempotent - if the state is not Initial it
changes nothing and hands back the existing started signal - and otherwise sets
the state to Starting and races the server gate against the deadline timer: if
configureServer resolves the gate before the timer fires (whether or not the
timer fires afterwards), the binding is stored, the state becomes Running and
the started signal resolves; if the timer fires first, the state becomes
StartFailed and the started signal rejects with the startup-timeout error. -/
theorem start_races_attachment (c : Client) (s : GLSPServer)
    (hI : c.state = ClientState.Initial) (hg : c.serverDeferredVal = none)
    (hro : c.raceOutcome = none) (hcr : c.contRan = false)
    (hss : c.startSignal = none) (htf : c.timerFired = false) :
    (∀ c2 : Client, c2.state ≠ ClientState.Initial → start c2 = c2) ∧
    (start c).state = ClientState.Starting ∧
    ((raceCont ((configureServer (start c) s).1)).state = ClientState.Running ∧
     (raceCont ((configureServer (start c) s).1)).server = some s ∧
     (raceCont ((configureServer (start c) s).1)).startSignal = some (Outcome.ok ())) ∧
    ((raceCont (timerFires ((configureServer (start c) s).1))).state = ClientState.Running ∧
     (raceCont (timerFires ((configureServer (start c) s).1))).server = some s ∧
     (raceCont (timerFires ((configureServer (start c) s).1))).startSignal
        = some (Outcome.ok ())) ∧
    ((raceCont (timerFires (start c))).state = ClientState.StartFailed ∧
     (raceCont (timerFires (start c))).startSignal
        = some (Outcome.err GLSPError.startupTimeout)) := by
  have hstart : start c = { c with state := ClientState.Starting, raceArmed := true } := by
    unfold start
    rw [if_neg (by rw [hI]; exact fun h => h rfl), hg]
  have hconf : (configureServer (start c) s).1
      = { c with
          state := ClientState.Starting, raceArmed := true
          serverDeferredVal := some s, raceOutcome := some (Outcome.ok s) } := by
    rw [hstart]
    unfold configureServer resolveServerDeferred
    simp [hg, hro]
  have hrc : raceCont ((configureServer (start c) s).1)
      = { c with
          state := ClientState.Running, raceArmed := true
          serverDeferredVal := some s, raceOutcome := some (Outcome.ok s)
          contRan := true, server := some s, startSignal := some (Outcome.ok ()) } := by
    rw [hconf]
    unfold raceCont
    simp [hcr, hss]
  have htm : timerFires ((configureServer (start c) s).1)
      = { c with
          state := ClientState.Starting, raceArmed := true
          serverDeferredVal := some s, raceOutcome := some (Outcome.ok s)
          timerFired := true } := by
    rw [hconf]
    unfold timerFires
    simp [htf]
  have hrct : raceCont (timerFires ((configureServer (start c) s).1))
      = { c with
          state := ClientState.Running, raceArmed := true
          serverDeferredVal := some s, raceOutcome := some (Outcome.ok s)
          timerFired := true, contRan := true, server := some s
          startSignal := some (Outcome.ok ()) } := by
    rw [htm]
    unfold raceCont
    simp [hcr, hss]
  have htm2 : timerFires (start c)
      = { c with
          state := ClientState.Starting, raceArmed := true, timerFired := true
          raceOutcome := some (Outcome.err GLSPError.startupTimeout) } := by
    rw [hstart]
    unfold timerFires
    simp [htf, hro]
  have hrc2 : raceCont (timerFires (start c))
      = { c with
          state := ClientState.StartFailed, raceArmed := true, timerFired := true
          raceOutcome := some (Outcome.err GLSPError.startupTimeout), contRan := true
          startSignal := some (Outcome.err GLSPError.startupTimeout) } := by
    rw [htm2]
    unfold raceCont
    simp [hcr, hss]
  refine ⟨fun c2 h => start_of_ne_initial c2 h, ?_, ?_, ?_, ?_⟩
  · rw [hstart]
  · rw [hrc]
    exact ⟨rfl, rfl, rfl⟩
  · rw [hrct]
    exact ⟨rfl, rfl, rfl⟩
  · rw [hrc2]
    exact ⟨rfl, rfl⟩

/-- Witness for claim C4 at a freshly constructed client and a concrete
binding. -/
theorem start_races_attachment_witness :
    (start (mkClient "w4")).state = ClientState.Starting ∧
    (raceCont ((configureServer (start (mkClient "w4")) ⟨5, false⟩).1)).state
      = ClientState.Running ∧
    (raceCont (timerFires (start (mkClient "w4")))).state = ClientState.StartFailed :=
  have h := start_races_attachment (mkClient "w4") ⟨5, false⟩ (by decide) (by decide)
    (by decide) (by decide) (by decide) (by decide)
  ⟨h.2.1, h.2.2.1.1, h.2.2.2.2.1⟩

/-! ### Claim C5: the configureServer contract -/

lemma startSignal_configure (c : Client) (s : GLSPServer) :
    ((configureServer c s).1).startSignal = c.startSignal := by
  unfold configureServer resolveServerDeferred
  repeat' split
  all_goals rfl

lemma contRan_configure (c : Client) (s : GLSPServer) :
    ((configureServer c s).1).contRan = c.contRan := by
  unfold configureServer resolveServerDeferred
  repeat' split
  all_goals rfl

lemma calls_configure (c : Client) (s : GLSPServer) :
    ((configureServer c s).1).calls = c.calls := by
  unfold configureServer resolveServerDeferred
  repeat' split
  all_goals rfl

lemma raceOutcome_configure (c : Client) (s : GLSPServer) (h : c.raceOutcome.isNone = false) :
    ((configureServer c s).1).raceOutcome = c.raceOutcome := by
  unfold configureServer resolveServerDeferred
  repeat' split
  all_goals simp_all

lemma configureServer_of_some (c : Client) (s : GLSPServer)
    (hnr : c.state ≠ ClientState.Running) (hg : c.serverDeferredVal.isSome = true) :
    (configureServer c s).1 = c := by
  unfold configureServer resolveServerDeferred
  rw [if_neg hnr]
  cases hv : c.serverDeferredVal with
  | none => rw [hv] at hg; exact absurd hg (by decide)
  | some v => simp [hv]

lemma serverDeferredVal_configure_of_none (c : Client) (s : GLSPServer)
    (hnr : c.state ≠ ClientState.Running) (hg : c.serverDeferredVal = none) :
    ((configureServer c s).1).serverDeferredVal = some s := by
  unfold configureServer resolveServerDeferred
  rw [if_neg hnr, hg]
  split
  · split
    · rfl
    · rfl
  · rename_i h
    exact absurd rfl h

/-- Claim C5, confirmed: configureServer(s) signals the usage error exactly when
the state is Running at the time of the call (and is then a no-op on the
client); calling it repeatedly only lets the first call take effect, because
the one-shot gate is already resolved; and once the startup deadline has fired
and settled the start (state StartFailed, race settled), a further
configureServer call signals no error and observably changes nothing - the
state stays StartFailed. -/
theorem configureServer_contract (c : Client) (s1 s2 : GLSPServer) :
    ((configureServer c s1).2 = some GLSPError.alreadyRunning ↔
        c.state = ClientState.Running) ∧
    (c.state = ClientState.Running → (configureServer c s1).1 = c) ∧
    (c.state ≠ ClientState.Running → c.serverDeferredVal = none →
        (configureServer ((configureServer c s1).1) s2).1 = (configureServer c s1).1) ∧
    (c.state = ClientState.StartFailed → c.raceOutcome.isSome = true →
        (configureServer c s1).2 = none ∧
        ((configureServer c s1).1).state = ClientState.StartFailed ∧
        ((configureServer c s1).1).server = c.server ∧
        ((configureServer c s1).1).startSignal = c.startSignal ∧
        ((configureServer c s1).1).raceOutcome = c.raceOutcome ∧
        ((configureServer c s1).1).contRan = c.contRan ∧
        ((configureServer c s1).1).stopResolved = c.stopResolved ∧
        ((configureServer c s1).1).calls = c.calls) := by
  refine ⟨?_, ?_, ?_, ?_⟩
  · unfold configureServer
    by_cases h : c.state = ClientState.Running
    · simp [h]
    · simp [h]
  · intro h
    unfold configureServer
    simp [h]
  · intro hnr hg
    have hst : ((configureServer c s1).1).state ≠ ClientState.Running := by
      rw [state_configure]
      exact hnr
    have hgate : ((configureServer c s1).1).serverDeferredVal.isSome = true := by
      rw [serverDeferredVal_configure_of_none c s1 hnr hg]
      rfl
    exact configureServer_of_some ((configureServer c s1).1) s2 hst hgate
  · intro hSF hsome
    have hnr : c.state ≠ ClientState.Running := by
      rw [hSF]
      decide
    have hno : c.raceOutcome.isNone = false := by
      cases hv : c.raceOutcome with
      | none => rw [hv] at hsome; exact absurd hsome (by decide)
      | some o => rfl
    have herr : (configureServer c s1).2 = none := by
      unfold configureServer
      rw [if_neg hnr]
    refine ⟨herr, ?_, server_configure c s1, startSignal_configure c s1,
      raceOutcome_configure c s1 hno, contRan_configure c s1, stopResolved_configure c s1,
      calls_configure c s1⟩
    rw [state_configure]
    exact hSF

/-- Witness for claim C5: on the concrete session whose deadline fired
(StartFailed), configureServer signals no error and leaves the state
StartFailed; and the error-iff-Running equivalence at that session. -/
theorem configureServer_contract_witness :
    ((configureServer (raceCont (timerFires (start (mkClient "u")))) ⟨4, false⟩).2
        = some GLSPError.alreadyRunning ↔
      (raceCont (timerFires (start (mkClient "u")))).state = ClientState.Running) ∧
    (configureServer (raceCont (timerFires (start (mkClient "u")))) ⟨4, false⟩).2 = none ∧
    ((configureServer (raceCont (timerFires (start (mkClient "u")))) ⟨4, false⟩).1).state
      = ClientState.StartFailed :=
  have h := configureServer_contract (raceCont (timerFires (start (mkClient "u"))))
    ⟨4, false⟩ ⟨4, false⟩
  have h4 := h.2.2.2 (by decide) (by decide)
  ⟨h.1, h4.1, h4.2.1⟩

/-! ### Claim C6: checked access for server-requiring operations -/

/-- Claim C6, confirmed: each of the five server-requiring operations
(initializeServer, initializeClientSession, disposeClientSession,
shutdownServer, sendActionMessage) signals the usage error naming the required
Running state whenever the state is not Running, leaving the client (state,
binding, call log) unchanged and forwarding nothing; and when the state is
Running but no binding is present it signals the distinct no-server-configured
usage error, again without any effect. -/
theorem checked_access_contract (c : Client) (m : Nat) :
    (c.state ≠ ClientState.Running →
        initializeServer c = (c, some (GLSPError.notRunning c.id ClientState.Running)) ∧
        initializeClientSession c = (c, some (GLSPError.notRunning c.id ClientState.Running)) ∧
        disposeClientSession c = (c, some (GLSPError.notRunning c.id ClientState.Running)) ∧
        shutdownServer c = (c, some (GLSPError.notRunning c.id ClientState.Running)) ∧
        sendActionMessage c m = (c, some (GLSPError.notRunning c.id ClientState.Running))) ∧
    (c.state = ClientState.Running → c.server = none →
        initializeServer c = (c, some (GLSPError.noServerConfigured c.id)) ∧
        initializeClientSession c = (c, some (GLSPError.noServerConfigured c.id)) ∧
        disposeClientSession c = (c, some (GLSPError.noServerConfigured c.id)) ∧
        shutdownServer c = (c, some (GLSPError.noServerConfigured c.id)) ∧
        sendActionMessage c m = (c, some (GLSPError.noServerConfigured c.id))) := by
  constructor
  · intro h
    exact ⟨forwardCall_notRunning c _ h, forwardCall_notRunning c _ h,
      forwardCall_notRunning c _ h, forwardCall_notRunning c _ h,
      forwardCall_notRunning c _ h⟩
  · intro h hsv
    exact ⟨forwardCall_noServer c _ h hsv, forwardCall_noServer c _ h hsv,
      forwardCall_noServer c _ h hsv, forwardCall_noServer c _ h hsv,
      forwardCall_noServer c _ h hsv⟩

/-- Witness for claim C6: a fresh (Initial) client rejects sendActionMessage
with the not-Running error, and a defensively constructed Running client with
no binding rejects initializeServer with the no-server error. -/
theorem checked_access_contract_witness :
    sendActionMessage (mkClient "w6") 3
      = (mkClient "w6", some (GLSPError.notRunning (mkClient "w6").id ClientState.Running)) ∧
    initializeServer { mkClient "w6" with state := ClientState.Running }
      = ({ mkClient "w6" with state := ClientState.Running },
         some (GLSPError.noServerConfigured
           ({ mkClient "w6" with state := ClientState.Running }).id)) :=
  ⟨((checked_access_contract (mkClient "w6") 3).1 (by decide)).2.2.2.2,
   ((checked_access_contract { mkClient "w6" with state := ClientState.Running } 3).2
     (by decide) (by decide)).1⟩

/-! ### Claim C8: dispatch invokes a snapshot of the handler set -/

lemma mem_proxyProcess_fst (l2 : List Nat) (m2 : Nat) (eff2 : Nat → List Nat → List Nat)
    (p : Nat × Nat) (hp : p ∈ (proxyProcess l2 m2 eff2).1) : p.1 ∈ l2 := by
  unfold proxyProcess at hp
  split at hp
  · exact absurd hp (List.not_mem_nil p)
  · obtain ⟨x, hx, hxe⟩ := List.mem_map.mp hp
    rw [← hxe]
    exact hx

/-- Claim C8, confirmed: dispatch of an inbound message invokes exactly the
snapshot of handlers registered the moment dispatch begins, each exactly once
with that message, whatever mutations (`eff`) the handler bodies perform on the
live handler list; a handler unregistered mid-dispatch (absent from the live
list afterwards) still received the current round but is not invoked in the
next one; and with an empty handler set the message is dropped with only the
diagnostic flag set. -/
theorem dispatch_snapshot_contract (live : List Nat) (m m2 : Nat)
    (eff eff2 : Nat → List Nat → List Nat) (h : Nat) :
    (live = [] → proxyProcess live m eff = ([], live, true)) ∧
    (live ≠ [] → (proxyProcess live m eff).1 = live.map (fun x => (x, m)) ∧
        (proxyProcess live m eff).2.2 = false) ∧
    (live.Nodup → h ∈ live → ((proxyProcess live m eff).1).count (h, m) = 1) ∧
    (h ∉ live → ((proxyProcess live m eff).1).count (h, m) = 0) ∧
    (h ∈ live → h ∉ (proxyProcess live m eff).2.1 →
        ((h, m) ∈ (proxyProcess live m eff).1 ∧
         ∀ p ∈ (proxyProcess (proxyProcess live m eff).2.1 m2 eff2).1, p.1 ≠ h)) := by
  refine ⟨?_, ?_, ?_, ?_, ?_⟩
  · intro he
    subst he
    rfl
  · intro hne
    cases live with
    | nil => exact absurd rfl hne
    | cons a l => exact ⟨rfl, rfl⟩
  · intro hnd hmem
    cases live with
    | nil => exact absurd hmem (List.not_mem_nil h)
    | cons a l =>
        show ((a :: l).map (fun x => (x, m))).count (h, m) = 1
        rw [count_map_pair]
        exact List.count_eq_one_of_mem hnd hmem
  · intro hnmem
    cases live with
    | nil => rfl
    | cons a l =>
        show ((a :: l).map (fun x => (x, m))).count (h, m) = 0
        rw [count_map_pair]
        exact List.count_eq_zero.mpr hnmem
  · intro hmem hnot
    cases live with
    | nil => exact absurd hmem (List.not_mem_nil h)
    | cons a l =>
        refine ⟨List.mem_map.mpr ⟨h, hmem, rfl⟩, ?_⟩
        intro p hp hph
        have hmem2 := mem_proxyProcess_fst _ _ _ p hp
        rw [hph] at hmem2
        exact hnot hmem2

/-- Witness for claim C8 at a two-handler set where handler 0 unregisters
itself during its own invocation: both handlers still receive the dispatched
message, and 0 receives nothing in the next dispatch. -/
theorem dispatch_snapshot_contract_witness :
    proxyProcess [0, 1] 9 (fun hh ll => if hh = 0 then removeHandler ll 0 else ll)
      = ([(0, 9), (1, 9)], [1], false) ∧
    ((proxyProcess [0, 1] 9
        (fun hh ll => if hh = 0 then removeHandler ll 0 else ll)).1).count (0, 9) = 1 ∧
    (0, 9) ∈ (proxyProcess [0, 1] 9
        (fun hh ll => if hh = 0 then removeHandler ll 0 else ll)).1 ∧
    (∀ p ∈ (proxyProcess (proxyProcess [0, 1] 9
        (fun hh ll => if hh = 0 then removeHandler ll 0 else ll)).2.1 5
        (fun _ ll => ll)).1, p.1 ≠ 0) :=
  have hc := dispatch_snapshot_contract [0, 1] 9 5
    (fun hh ll => if hh = 0 then removeHandler ll 0 else ll) (fun _ ll => ll) 0
  ⟨by decide, hc.2.2.1 (by decide) (by decide),
   (hc.2.2.2.2 (by decide) (by decide)).1,
   (hc.2.2.2.2 (by decide) (by decide)).2⟩

/-! ### Claim C9: onActionMessage has set semantics over identity -/

/-- Claim C9, confirmed: registering the same handler a second time leaves the
handler set unchanged (and the registered handler is a member, with no
duplicates introduced); the returned capability unregisters exactly that
handler - after disposal it is gone - while every other registered handler
stays registered. -/
theorem onActionMessage_set_semantics (l : List Nat) (h h2 : Nat) :
    (onActionMessage (onActionMessage l h) h = onActionMessage l h) ∧
    (h ∈ onActionMessage l h) ∧
    (l.Nodup → (onActionMessage l h).Nodup) ∧
    (l.Nodup → h ∉ removeHandler (onActionMessage l h) h) ∧
    (h2 ≠ h → (h2 ∈ removeHandler l h ↔ h2 ∈ l)) := by
  have hmem : h ∈ onActionMessage l h := by
    unfold onActionMessage distinctAdd
    split
    · assumption
    · exact List.mem_append.mpr (Or.inr (List.mem_singleton.mpr rfl))
  refine ⟨?_, hmem, fun hn => nodup_distinctAdd l h hn, ?_, ?_⟩
  · show distinctAdd (distinctAdd l h) h = distinctAdd l h
    have hmem2 : h ∈ distinctAdd l h := hmem
    rw [show distinctAdd (distinctAdd l h) h
        = if h ∈ distinctAdd l h then distinctAdd l h else distinctAdd l h ++ [h] from rfl,
      if_pos hmem2]
  · intro hn
    show h ∉ (distinctAdd l h).erase h
    exact (nodup_distinctAdd l h hn).not_mem_erase
  · intro hne
    exact List.mem_erase_of_ne hne

/-- Witness for claim C9 at a concrete handler list. -/
theorem onActionMessage_set_semantics_witness :
    onActionMessage (onActionMessage [1, 2] 3) 3 = onActionMessage [1, 2] 3 ∧
    (3 : Nat) ∉ removeHandler (onActionMessage [1, 2] 3) 3 ∧
    ((1 : Nat) ∈ removeHandler [1, 2] 3 ↔ (1 : Nat) ∈ [1, 2]) :=
  have hc := onActionMessage_set_semantics [1, 2] 3 1
  ⟨hc.1, hc.2.2.2.1 (by decide), hc.2.2.2.2 (by decide)⟩

/-! ### Claim C10: handlers are invoked in registration order -/

/-- Claim C10, confirmed (an implicit property of the implementation): a new
registration is appended at the end of the handler list, unregistering a
handler preserves the relative order of the remaining handlers, and dispatch
invokes the snapshot in list order - so for any two handlers h1 registered
before h2 and both still registered when dispatch begins (h1 somewhere before
h2 in the live list), h1 is invoked before h2. -/
theorem dispatch_insertion_order (l p q r : List Nat) (h1 h2 m : Nat)
    (eff : Nat → List Nat → List Nat) :
    (h2 ∉ l → distinctAdd l h2 = l ++ [h2]) ∧
    ((removeHandler l h1).Sublist l) ∧
    (l = p ++ h1 :: q ++ h2 :: r →
        (proxyProcess l m eff).1
          = p.map (fun x => (x, m)) ++ (h1, m) :: q.map (fun x => (x, m))
              ++ (h2, m) :: r.map (fun x => (x, m))) := by
  refine ⟨?_, List.erase_sublist h1 l, ?_⟩
  · intro hnm
    unfold distinctAdd
    rw [if_neg hnm]
  · intro hl
    subst hl
    unfold proxyProcess
    split
    · rename_i hemp
      simp at hemp
    · show (p ++ h1 :: q ++ h2 :: r).map (fun x => (x, m)) = _
      simp

/-- Witness for claim C10: registering 7 after 5 appends it, and dispatch over
the list [5, 7] invokes (5, m) strictly before (7, m). -/
theorem dispatch_insertion_order_witness :
    distinctAdd [5] 7 = [5, 7] ∧
    (proxyProcess [5, 7] 9 (fun _ ll => ll)).1 = [(5, 9), (7, 9)] :=
  have hc := dispatch_insertion_order [5, 7] [] [] [] 5 7 9 (fun _ ll => ll)
  ⟨(dispatch_insertion_order [5] [] [] [] 5 7 9 (fun _ ll => ll)).1 (by decide),
   by rw [hc.2.2 (by decide)]; rfl⟩

end NodeGLSP
